import Mathlib

/-!
# Conjugate-gradient minimizer (Metaphor, `Core/opt_conjgrad.h`)

A shallow embedding of the line-minimization adapter `ConjGradientLineMin`, of the
parameter block `ConjGradientMinParams` and of the outer `ConjGradientMin` iteration.

Conventions.

* `TT` is the scalar type of the C++ template.  The adapter only needs `+`, `*` and `0`;
  results that rely on algebraic laws are stated over a commutative ring or a linear
  ordered field, i.e. for exact real arithmetic.
* `Vec TT n` is a dense vector whose dimension `n` is carried by the type: the vector
  operations of the library are only defined on operands of equal size.
* Member functions that mutate the object return the new object next to their result.
* The user objective is a pair of pure functions (value, gradient).
-/

namespace im

/-! ## Vector collaborator -/

/-- Dense vector of `n` scalars. -/
abbrev Vec (TT : Type) (n : Nat) : Type := Fin n → TT

/-- Modelled from the spec: `core_block_blas_axpy` of the vector collaborator is not in
the sources at hand; the spec gives it as scaled accumulation `y += alpha * x`. The
updated `y` is returned. -/
def core_block_blas_axpy {TT : Type} {n : Nat} [Add TT] [Mul TT]
    (y x : Vec TT n) (alpha : TT) : Vec TT n :=
  fun i => y i + alpha * x i

/-- Modelled from the spec: `Vec::dot_product` of the vector collaborator is not in the
sources at hand; it is the sum of the elementwise products. -/
def dot_product {TT : Type} {n : Nat} [Add TT] [Mul TT] [Zero TT] (v w : Vec TT n) : TT :=
  (List.ofFn fun i => v i * w i).sum

/-! ## Parameters -/

/-- The enum `ConjGradientUpdateMode`. -/
inductive ConjGradientUpdateMode where
  | ConjGradientUpdateModeFletcherReeves
  | ConjGradientUpdateModePolakRibiere
  deriving DecidableEq, Repr

/-- The struct `ConjGradientMinParams`; the `double` fields are scalars of type `TT`. -/
structure ConjGradientMinParams (TT : Type) where
  termination_ratio : TT
  gradient_ratio : TT
  bracket_max : TT
  update_mode : ConjGradientUpdateMode
  iterations_max : Int
  line_min_eps : TT

/-- The default constructor `ConjGradientMinParams()`, with the literals of the source. -/
def ConjGradientMinParams.new {TT : Type} [DivisionRing TT] :
    ConjGradientMinParams TT where
  termination_ratio := 1e-7
  gradient_ratio := 1e-8
  bracket_max := 1.0
  update_mode := ConjGradientUpdateMode.ConjGradientUpdateModePolakRibiere
  iterations_max := 1000000
  line_min_eps := 0

/-! ## The line-minimization adapter -/

/-- The two pure virtual evaluators of the owning minimizer, which is all the adapter
reaches through its back pointer `m_p`: `eval_fx(vx)` and `eval_dfx(vdfx, vx)`, the
latter returning the gradient it writes into `vdfx`. -/
structure Evaluator (TT : Type) (n : Nat) where
  eval_fx : Vec TT n → TT
  eval_dfx : Vec TT n → Vec TT n

/-- The data members of `ConjGradientLineMin<TT>`. -/
structure ConjGradientLineMin (TT : Type) (n : Nat) where
  m_p : Evaluator TT n
  m_xmin : TT
  m_fxmin : TT
  m_vbase : Vec TT n
  m_vdir : Vec TT n
  m_vx : Vec TT n
  m_vderiv : Vec TT n
  m_eps : TT

namespace ConjGradientLineMin

variable {TT : Type} {n : Nat}

/-- `init(p, dims, eps)`: stores the owner and the tolerance; the two scratch vectors are
resized to `dims`, which is the dimension `n` of the type. -/
def init (self : ConjGradientLineMin TT n) (p : Evaluator TT n) (eps : TT) :
    ConjGradientLineMin TT n :=
  { self with m_p := p, m_eps := eps }

/-- `xmin()`. -/
def xmin (self : ConjGradientLineMin TT n) : TT := self.m_xmin

/-- `fxmin()`. -/
def fxmin (self : ConjGradientLineMin TT n) : TT := self.m_fxmin

/-- `eval_fx(x)`: copies the base point into the scratch point, accumulates `x` times the
direction into it and evaluates the owner's objective there. -/
def eval_fx [Add TT] [Mul TT] (self : ConjGradientLineMin TT n) (x : TT) :
    TT × ConjGradientLineMin TT n :=
  let vx0 := self.m_vbase
  let vx1 := core_block_blas_axpy vx0 self.m_vdir x
  (self.m_p.eval_fx vx1, { self with m_vx := vx1 })

/-- `eval_dfx(x)`: the argument is not used; the owner's gradient is taken at the scratch
point left by the last `eval_fx` and projected onto the direction. -/
def eval_dfx [Add TT] [Mul TT] [Zero TT] (self : ConjGradientLineMin TT n) (_x : TT) :
    TT × ConjGradientLineMin TT n :=
  let vderiv := self.m_p.eval_dfx self.m_vx
  (dot_product vderiv self.m_vdir, { self with m_vderiv := vderiv })

end ConjGradientLineMin

/-- A scalar routine that is handed a `FuncEval1D<TT>*`: it can only call `eval_fx` and
`eval_dfx` on it, finitely often, each next action depending on the values obtained so
far, and then returns a result of type `R`. -/
inductive FuncEval1D (TT : Type) (R : Type) where
  | ret : R → FuncEval1D TT R
  | eval_fx : TT → (TT → FuncEval1D TT R) → FuncEval1D TT R
  | eval_dfx : TT → (TT → FuncEval1D TT R) → FuncEval1D TT R

/-- Runs a scalar routine against the adapter, threading the adapter's state. -/
def FuncEval1D.run {TT R : Type} {n : Nat} [Add TT] [Mul TT] [Zero TT] :
    FuncEval1D TT R → ConjGradientLineMin TT n → R × ConjGradientLineMin TT n
  | .ret r, self => (r, self)
  | .eval_fx x k, self => FuncEval1D.run (k (self.eval_fx x).1) (self.eval_fx x).2
  | .eval_dfx x k, self => FuncEval1D.run (k (self.eval_dfx x).1) (self.eval_dfx x).2

/-- The two scalar line-search routines, external to the sources at hand and used as
black boxes: `core_line_min_bracket(xa, xb, xc, f, a, b)` yields `(xa, xb, xc)` and
`core_line_min_using_derivs(xmin, fxmin, f, a, c, eps)` yields `(xmin, fxmin)`. -/
structure LineSearch (TT : Type) where
  core_line_min_bracket : TT → TT → FuncEval1D TT (TT × TT × TT)
  core_line_min_using_derivs : TT → TT → TT → FuncEval1D TT (TT × TT)

namespace ConjGradientLineMin

variable {TT : Type} {n : Nat}

/-- A run of consecutive `eval_dfx` calls, one for each listed argument in order, with no
`eval_fx` among them; the adapter afterwards. -/
def eval_dfx_calls [Add TT] [Mul TT] [Zero TT] (self : ConjGradientLineMin TT n)
    (xs : List TT) : ConjGradientLineMin TT n :=
  xs.foldl (fun s x => (s.eval_dfx x).2) self

/-- The first two statements of `linemin`: `m_vbase` and `m_vdir` become references to
the caller's vectors. -/
def bind_line (self : ConjGradientLineMin TT n) (vbase vdir : Vec TT n) :
    ConjGradientLineMin TT n :=
  { self with m_vbase := vbase, m_vdir := vdir }

/-- `linemin(vbase, vdir, bracketmax)`. Returns the adapter afterwards and the caller's
`vbase` afterwards. `vbase` and `vdir` are distinct storage; `m_vbase` shares the
storage of `vbase`, so it sees the final accumulation as well. -/
def linemin [Add TT] [Mul TT] [Zero TT] (ls : LineSearch TT)
    (self : ConjGradientLineMin TT n) (vbase vdir : Vec TT n) (bracketmax : TT) :
    ConjGradientLineMin TT n × Vec TT n :=
  let self1 := self.bind_line vbase vdir
  let r1 := (ls.core_line_min_bracket 0 bracketmax).run self1
  let xa := r1.1.1
  let xc := r1.1.2.2
  let self2 := r1.2
  let r2 := (ls.core_line_min_using_derivs xa xc self2.m_eps).run self2
  let self3 := { r2.2 with m_xmin := r2.1.1, m_fxmin := r2.1.2 }
  let vbase1 := core_block_blas_axpy vbase self3.m_vdir self3.m_xmin
  ({ self3 with m_vbase := vbase1 }, vbase1)

end ConjGradientLineMin

/-! ## The minimizer -/

/-- The data members of `ConjGradientMin<TT>`. -/
structure ConjGradientMin (TT : Type) (n : Nat) where
  m_early_exit : Bool
  m_fx : TT
  m_delta_fx : TT
  m_delta_x : TT
  m_vstate : Vec TT n
  m_vdir_x : Vec TT n
  m_vdir_g : Vec TT n
  m_vdir_h : Vec TT n
  m_iterations : Int
  m_startup : Bool
  m_params : ConjGradientMinParams TT
  m_linemin : ConjGradientLineMin TT n

/-- What a class derived from `ConjGradientMin<TT>` supplies: the two required
evaluators and its override of `eval_end_step`, which may inspect the minimizer. The
hooks `eval_init` and `eval_start_step` return nothing and are taken to leave the
minimizer's own members alone, as their default bodies do. -/
structure Derived (TT : Type) (n : Nat) where
  evaluator : Evaluator TT n
  eval_end_step : ConjGradientMin TT n → Bool

/-- Scalar facilities the outer iteration needs besides field arithmetic: the square
root used for Euclidean norms, the small positive floor of the relative tests and the
built-in line-search tolerance used when `line_min_eps` is not positive. -/
structure Numerics (TT : Type) where
  sqrt : TT → TT
  tiny_floor : TT
  line_min_eps_default : TT

namespace ConjGradientMin

variable {TT : Type} {n : Nat}

/-- `set_parameters(p)`. -/
def set_parameters (self : ConjGradientMin TT n) (p : ConjGradientMinParams TT) :
    ConjGradientMin TT n :=
  { self with m_params := p }

/-- `early_exit()`. -/
def early_exit (self : ConjGradientMin TT n) : Bool := self.m_early_exit

/-- `fx()`. -/
def fx (self : ConjGradientMin TT n) : TT := self.m_fx

/-- `delta_fx()`. -/
def delta_fx (self : ConjGradientMin TT n) : TT := self.m_delta_fx

/-- `delta_x()`. -/
def delta_x (self : ConjGradientMin TT n) : TT := self.m_delta_x

/-- `state()`. -/
def state (self : ConjGradientMin TT n) : Vec TT n := self.m_vstate

/-- `iteration_count()`. -/
def iteration_count (self : ConjGradientMin TT n) : Int := self.m_iterations

/-- The default body of the virtual `eval_end_step`: never asks for an early exit. -/
def eval_end_step (_self : ConjGradientMin TT n) : Bool := false

/-- Euclidean norm of a vector, through the square root of `Numerics`. -/
def norm [Add TT] [Mul TT] [Zero TT] (nu : Numerics TT) (v : Vec TT n) : TT :=
  nu.sqrt (dot_product v v)

/-- Modelled from the spec: the body of `ConjGradientMin::init` is not in the sources at
hand (only its declaration is). Per the spec it stores the caller's vector as the live
state, allocates the three working vectors (their contents are left as they are here),
resets `iteration_count = 0` and `startup = true`, and hands the line search its
tolerance: `line_min_eps` if positive, else the built-in default. The early-exit flag,
which the spec sets only on a hook request, starts cleared. -/
def init [LinearOrderedField TT] (nu : Numerics TT) (d : Derived TT n)
    (self : ConjGradientMin TT n) (vstate : Vec TT n) : ConjGradientMin TT n :=
  let eps := if 0 < self.m_params.line_min_eps then self.m_params.line_min_eps
    else nu.line_min_eps_default
  { self with
    m_vstate := vstate
    m_iterations := 0
    m_startup := true
    m_early_exit := false
    m_linemin := self.m_linemin.init d.evaluator eps }

/-- Modelled from the spec: the Polak-Ribiere ratio before clamping,
`(g_new . (g_new - g_old)) / (g_old . g_old)`. -/
def beta_polak_ribiere [LinearOrderedField TT] (g_new g_old : Vec TT n) : TT :=
  dot_product g_new (fun i => g_new i - g_old i) / dot_product g_old g_old

/-- Modelled from the spec: the Fletcher-Reeves ratio `(g_new . g_new) / (g_old . g_old)`. -/
def beta_fletcher_reeves [LinearOrderedField TT] (g_new g_old : Vec TT n) : TT :=
  dot_product g_new g_new / dot_product g_old g_old

/-- Modelled from the spec: the weight `beta` of step 3 of `step()`. A previous gradient
of squared norm exactly zero gives a restart (`beta = 0`); the Polak-Ribiere ratio is
clamped to be non-negative. -/
def beta [LinearOrderedField TT] (mode : ConjGradientUpdateMode) (g_new g_old : Vec TT n) :
    TT :=
  if dot_product g_old g_old = 0 then 0
  else
    match mode with
    | .ConjGradientUpdateModeFletcherReeves => beta_fletcher_reeves g_new g_old
    | .ConjGradientUpdateModePolakRibiere => max (beta_polak_ribiere g_new g_old) 0

/-- Modelled from the spec: the negated gradient at the current point (step 2). -/
def negative_gradient [LinearOrderedField TT] (d : Derived TT n) (self : ConjGradientMin TT n) :
    Vec TT n :=
  fun i => - d.evaluator.eval_dfx self.m_vstate i

/-- Modelled from the spec: the search direction of step 3, the negated gradient on the
startup step and `g_new + beta * direction_h_old` afterwards. -/
def search_direction [LinearOrderedField TT] (d : Derived TT n) (self : ConjGradientMin TT n) :
    Vec TT n :=
  let g_new := negative_gradient d self
  if self.m_startup then g_new
  else
    let b := beta self.m_params.update_mode g_new self.m_vdir_g
    fun i => g_new i + b * self.m_vdir_h i

/-- Modelled from the spec: the termination test of step 9, in the order (a) early exit,
(b) iteration cap, (c) relative change of the value, (d) relative gradient norm. -/
def terminated [LinearOrderedField TT] (nu : Numerics TT) (self : ConjGradientMin TT n) :
    Bool :=
  self.m_early_exit
    || decide (self.m_iterations ≥ self.m_params.iterations_max)
    || decide (|self.m_delta_fx| ≤
        self.m_params.termination_ratio * max |self.m_fx| nu.tiny_floor)
    || decide (norm nu self.m_vdir_g ≤
        self.m_params.gradient_ratio * max (norm nu self.m_vstate) nu.tiny_floor)

/-- Modelled from the spec: the body of `ConjGradientMin::step` is not in the sources at
hand (only its declaration is); this follows the nine steps of the spec. The result is
the returned flag and the minimizer afterwards. The line search is the adapter's
`linemin` above. -/
def step [LinearOrderedField TT] (ls : LineSearch TT) (nu : Numerics TT) (d : Derived TT n)
    (self : ConjGradientMin TT n) : Bool × ConjGradientMin TT n :=
  -- 1: the start-of-step hook leaves the minimizer alone
  -- 2, 3: negated gradient and conjugate direction
  let g_new := negative_gradient d self
  let h_new := search_direction d self
  -- 5: line search along the direction, writing the new point into the state
  let lm := self.m_linemin.linemin ls self.m_vstate h_new self.m_params.bracket_max
  let t_min := lm.1.xmin
  let fx_new := lm.1.fxmin
  -- 4, 6, 7: bookkeeping
  let s1 : ConjGradientMin TT n :=
    { self with
      m_vstate := lm.2
      m_vdir_x := h_new
      m_vdir_g := g_new
      m_vdir_h := h_new
      m_startup := false
      m_delta_fx := self.m_fx - fx_new
      m_delta_x := |t_min| * norm nu h_new
      m_fx := fx_new
      m_iterations := self.m_iterations + 1
      m_linemin := lm.1 }
  -- 8: the end-of-step hook
  let s2 := if d.eval_end_step s1 then { s1 with m_early_exit := true } else s1
  -- 9
  (terminated nu s2, s2)

end ConjGradientMin

/-- The states a caller following the documented loop can observe: `init`, then `step`
again and again for as long as the previous call returned false. The flag is what the
last call to `step` returned (false right after `init`). -/
inductive Reached {TT : Type} {n : Nat} [LinearOrderedField TT] (ls : LineSearch TT)
    (nu : Numerics TT) (d : Derived TT n) (self0 : ConjGradientMin TT n) (x0 : Vec TT n) :
    Bool → ConjGradientMin TT n → Prop where
  | init : Reached ls nu d self0 x0 false (ConjGradientMin.init nu d self0 x0)
  | step (s : ConjGradientMin TT n) :
      Reached ls nu d self0 x0 false s →
      Reached ls nu d self0 x0 (ConjGradientMin.step ls nu d s).1
        (ConjGradientMin.step ls nu d s).2

/-! ## Concrete instances used for witnesses -/

namespace Demo

/-- The objective `f(x) = x * x` in one dimension, with gradient `2 * x`. -/
def square : Evaluator ℚ 1 where
  eval_fx := fun v => v 0 * v 0
  eval_dfx := fun v => fun _ => 2 * v 0

/-- A line search that brackets with the interval it is given and then evaluates the
function once, at the far end of the bracket, and returns that abscissa and value. -/
def far_end : LineSearch ℚ where
  core_line_min_bracket := fun a b => FuncEval1D.ret (a, b, b)
  core_line_min_using_derivs := fun _a c _eps =>
    FuncEval1D.eval_fx c (fun v => FuncEval1D.ret (c, v))

/-- The linear objective `f(x) = x` in one dimension, with constant gradient `1`. -/
def linear : Evaluator ℚ 1 where
  eval_fx := fun v => v 0
  eval_dfx := fun _ => fun _ => 1

/-- An adapter over `linear` with all scalars and vectors zero. -/
def adapter_linear : ConjGradientLineMin ℚ 1 where
  m_p := linear
  m_xmin := 0
  m_fxmin := 0
  m_vbase := fun _ => 0
  m_vdir := fun _ => 0
  m_vx := fun _ => 0
  m_vderiv := fun _ => 0
  m_eps := 0

/-- An adapter over `square` with all scalars and vectors zero. -/
def adapter : ConjGradientLineMin ℚ 1 where
  m_p := square
  m_xmin := 0
  m_fxmin := 0
  m_vbase := fun _ => 0
  m_vdir := fun _ => 0
  m_vx := fun _ => 0
  m_vderiv := fun _ => 0
  m_eps := 0

/-- Numerics over the rationals: the rational square root of Mathlib, a floor of
`1 / 10 ^ 30` and a built-in tolerance of `1 / 1000`. -/
def numerics : Numerics ℚ where
  sqrt := Rat.sqrt
  tiny_floor := 1 / 10 ^ 30
  line_min_eps_default := 1 / 1000

/-- A derived minimizer over `square` with the given end-of-step hook. -/
def derived (hook : ConjGradientMin ℚ 1 → Bool) : Derived ℚ 1 where
  evaluator := square
  eval_end_step := hook

/-- A freshly constructed minimizer with default parameters except for the iteration
cap; all scalars and vectors are zero. -/
def minimizer (cap : Int) : ConjGradientMin ℚ 1 where
  m_early_exit := false
  m_fx := 0
  m_delta_fx := 0
  m_delta_x := 0
  m_vstate := fun _ => 0
  m_vdir_x := fun _ => 0
  m_vdir_g := fun _ => 0
  m_vdir_h := fun _ => 0
  m_iterations := 0
  m_startup := true
  m_params := { ConjGradientMinParams.new with iterations_max := cap }
  m_linemin := adapter

/-- A minimizer in the middle of a run (not the startup step, Polak-Ribiere mode): the
point is `-1/2`, so the negated gradient of `square` is `1`, while the previous negated
gradient is `2` and the previous direction is `5`. -/
def running : ConjGradientMin ℚ 1 :=
  { minimizer 10 with
    m_startup := false
    m_iterations := 1
    m_vstate := fun _ => -1 / 2
    m_vdir_g := fun _ => 2
    m_vdir_h := fun _ => 5
    m_vdir_x := fun _ => 5 }

end Demo

/-! ## Results on the line-minimization adapter -/

section LineMin

variable {TT : Type} {n : Nat}

/-- The dot product is the finite sum of the elementwise products. -/
theorem dot_product_eq_sum [Semiring TT] (v w : Vec TT n) :
    dot_product v w = ∑ i, v i * w i := by
  unfold dot_product
  exact List.sum_ofFn

/-- Running a scalar routine never changes the owner, the base point, the direction or
the tolerance of the adapter: `eval_fx` and `eval_dfx` only write the scratch vectors. -/
theorem FuncEval1D.run_frame {R : Type} [Add TT] [Mul TT] [Zero TT] (prog : FuncEval1D TT R) :
    ∀ self : ConjGradientLineMin TT n,
      (prog.run self).2.m_p = self.m_p ∧ (prog.run self).2.m_vbase = self.m_vbase ∧
      (prog.run self).2.m_vdir = self.m_vdir ∧ (prog.run self).2.m_eps = self.m_eps := by
  induction prog with
  | ret r => intro self; exact ⟨rfl, rfl, rfl, rfl⟩
  | eval_fx x k ih => intro self; exact ih _ _
  | eval_dfx x k ih => intro self; exact ih _ _

/-- The direction the adapter holds after `linemin` is the caller's direction. -/
theorem ConjGradientLineMin.linemin_m_vdir [Add TT] [Mul TT] [Zero TT] (ls : LineSearch TT)
    (self : ConjGradientLineMin TT n) (vbase vdir : Vec TT n) (bracketmax : TT) :
    (self.linemin ls vbase vdir bracketmax).1.m_vdir = vdir := by
  simp only [ConjGradientLineMin.linemin]
  rw [(FuncEval1D.run_frame _ _).2.2.1, (FuncEval1D.run_frame _ _).2.2.1]
  rfl

/-- The owner the adapter holds after `linemin` is unchanged. -/
theorem ConjGradientLineMin.linemin_m_p [Add TT] [Mul TT] [Zero TT] (ls : LineSearch TT)
    (self : ConjGradientLineMin TT n) (vbase vdir : Vec TT n) (bracketmax : TT) :
    (self.linemin ls vbase vdir bracketmax).1.m_p = self.m_p := by
  simp only [ConjGradientLineMin.linemin]
  rw [(FuncEval1D.run_frame _ _).1, (FuncEval1D.run_frame _ _).1]
  rfl

/-- The caller's base vector after `linemin`, elementwise. -/
theorem ConjGradientLineMin.linemin_snd [Add TT] [Mul TT] [Zero TT] (ls : LineSearch TT)
    (self : ConjGradientLineMin TT n) (vbase vdir : Vec TT n) (bracketmax : TT) :
    (self.linemin ls vbase vdir bracketmax).2 =
      fun i => vbase i + (self.linemin ls vbase vdir bracketmax).1.xmin * vdir i := by
  have h := ConjGradientLineMin.linemin_m_vdir ls self vbase vdir bracketmax
  simp only [ConjGradientLineMin.linemin] at h
  simp only [ConjGradientLineMin.linemin, ConjGradientLineMin.xmin]
  rw [h]
  rfl

/-- C1. For every base point, direction and scalar `t`, `eval_fx(t)` of the adapter is the
owner's objective at the point `base + t * direction` (elementwise); in particular
`eval_fx(0)` is the objective at the base point. -/
theorem ConjGradientLineMin.eval_fx_is_objective_on_line [Semiring TT]
    (self : ConjGradientLineMin TT n) (base dir : Vec TT n) (t : TT) :
    ((self.bind_line base dir).eval_fx t).1
        = self.m_p.eval_fx (fun i => base i + t * dir i) ∧
    ((self.bind_line base dir).eval_fx 0).1 = self.m_p.eval_fx base := by
  refine ⟨rfl, ?_⟩
  have h0 : core_block_blas_axpy base dir 0 = base := by
    funext i
    simp [core_block_blas_axpy]
  simp [ConjGradientLineMin.eval_fx, ConjGradientLineMin.bind_line, h0]

/-- C2. When `eval_dfx(t)` is called right after `eval_fx(t)`, it returns the dot product
of the owner's gradient at `base + t * direction` with the direction. -/
theorem ConjGradientLineMin.eval_dfx_after_eval_fx [Semiring TT]
    (self : ConjGradientLineMin TT n) (base dir : Vec TT n) (t : TT) :
    (((self.bind_line base dir).eval_fx t).2.eval_dfx t).1
      = ∑ i, self.m_p.eval_dfx (fun j => base j + t * dir j) i * dir i := by
  rw [← dot_product_eq_sum]
  rfl

/-- C3. After `linemin(vbase, vdir, bracketmax)` the caller's base vector is its value
before the call plus `xmin()` times the direction, elementwise. -/
theorem ConjGradientLineMin.linemin_accumulates_step [Add TT] [Mul TT] [Zero TT]
    (ls : LineSearch TT) (self : ConjGradientLineMin TT n) (vbase vdir : Vec TT n)
    (bracketmax : TT) :
    ∀ i, (self.linemin ls vbase vdir bracketmax).2 i
      = vbase i + (self.linemin ls vbase vdir bracketmax).1.xmin * vdir i := by
  intro i
  exact congrFun (ConjGradientLineMin.linemin_snd ls self vbase vdir bracketmax) i

/-- C8. `linemin` runs the bracketing routine on the interval from `0` to `bracketmax`,
then the derivative refinement on the outer abscissas `xa` and `xc` of the bracket with
the tolerance given to `init`, on the adapter as the bracketing left it; `xmin()` and
`fxmin()` are afterwards the two results of that refinement call. -/
theorem ConjGradientLineMin.linemin_delegates [Add TT] [Mul TT] [Zero TT]
    (ls : LineSearch TT) (self : ConjGradientLineMin TT n) (p : Evaluator TT n) (eps : TT)
    (vbase vdir : Vec TT n) (bracketmax : TT) :
    ((self.init p eps).linemin ls vbase vdir bracketmax).1.xmin
      = ((ls.core_line_min_using_derivs
          ((ls.core_line_min_bracket 0 bracketmax).run
            ((self.init p eps).bind_line vbase vdir)).1.1
          ((ls.core_line_min_bracket 0 bracketmax).run
            ((self.init p eps).bind_line vbase vdir)).1.2.2
          eps).run
          ((ls.core_line_min_bracket 0 bracketmax).run
            ((self.init p eps).bind_line vbase vdir)).2).1.1 ∧
    ((self.init p eps).linemin ls vbase vdir bracketmax).1.fxmin
      = ((ls.core_line_min_using_derivs
          ((ls.core_line_min_bracket 0 bracketmax).run
            ((self.init p eps).bind_line vbase vdir)).1.1
          ((ls.core_line_min_bracket 0 bracketmax).run
            ((self.init p eps).bind_line vbase vdir)).1.2.2
          eps).run
          ((ls.core_line_min_bracket 0 bracketmax).run
            ((self.init p eps).bind_line vbase vdir)).2).1.2 := by
  have he : ((ls.core_line_min_bracket 0 bracketmax).run
      ((self.init p eps).bind_line vbase vdir)).2.m_eps = eps :=
    (FuncEval1D.run_frame _ _).2.2.2
  simp only [ConjGradientLineMin.linemin, ConjGradientLineMin.xmin,
    ConjGradientLineMin.fxmin, he, and_self]

/-- A run of `eval_dfx` calls leaves the owner, the direction and the scratch point of
the adapter as they were: `eval_dfx` writes the scratch gradient only. -/
theorem ConjGradientLineMin.eval_dfx_calls_frame [Add TT] [Mul TT] [Zero TT]
    (xs : List TT) :
    ∀ self : ConjGradientLineMin TT n,
      (self.eval_dfx_calls xs).m_p = self.m_p ∧
      (self.eval_dfx_calls xs).m_vdir = self.m_vdir ∧
      (self.eval_dfx_calls xs).m_vx = self.m_vx := by
  induction xs with
  | nil => intro self; exact ⟨rfl, rfl, rfl⟩
  | cons x xs ih => intro self; exact ih (self.eval_dfx x).2

/-- C9 (amended). `eval_dfx` ignores its argument: after `eval_fx(t)`, whatever further
`eval_dfx` calls follow (with no `eval_fx` among them), `eval_dfx(t2)` returns the
gradient at `base + t * direction` projected on the direction, for every `t` and `t2`.
For `t2` different from `t` this can differ from the derivative at `t2`: it does for the
square function with base `0`, direction `1`, `t = 1`, `t2 = 0`. -/
theorem ConjGradientLineMin.eval_dfx_ignores_argument :
    (∀ (TT : Type) (n : Nat) (_ : Semiring TT) (self : ConjGradientLineMin TT n)
        (base dir : Vec TT n) (t : TT) (between : List TT) (t2 : TT),
      ((((self.bind_line base dir).eval_fx t).2.eval_dfx_calls between).eval_dfx t2).1
        = ∑ i, self.m_p.eval_dfx (fun j => base j + t * dir j) i * dir i) ∧
    ((0 : ℚ) ≠ 1 ∧
      (((Demo.adapter.bind_line (fun _ => 0) (fun _ => 1)).eval_fx 1).2.eval_dfx 0).1
        ≠ ∑ i, Demo.adapter.m_p.eval_dfx
            (fun j => (fun _ => (0 : ℚ)) j + 0 * (fun _ => (1 : ℚ)) j) i
            * (fun _ => (1 : ℚ)) i) := by
  refine ⟨?_, by norm_num, ?_⟩
  · intro TT n _ self base dir t between t2
    have hf := ConjGradientLineMin.eval_dfx_calls_frame between
      ((self.bind_line base dir).eval_fx t).2
    rw [← dot_product_eq_sum]
    simp only [ConjGradientLineMin.eval_dfx, hf.1, hf.2.1, hf.2.2]
    rfl
  · simp [ConjGradientLineMin.eval_dfx, ConjGradientLineMin.eval_fx,
      ConjGradientLineMin.bind_line, core_block_blas_axpy, dot_product, Demo.adapter,
      Demo.square]

/-- Counterexample for C9 as stated: for the linear objective `f(x) = x` (base `0`,
direction `1`), `eval_dfx(0)` called after `eval_fx(1)` is the derivative at the
abscissa `0` although `0` differs from `1`; so the returned value is not, for every
objective, other than the derivative at the argument. -/
theorem ConjGradientLineMin.eval_dfx_is_derivative_for_linear :
    (0 : ℚ) ≠ 1 ∧
    (((Demo.adapter_linear.bind_line (fun _ => 0) (fun _ => 1)).eval_fx 1).2.eval_dfx 0).1
      = ∑ i, Demo.adapter_linear.m_p.eval_dfx
          (fun j => (fun _ => (0 : ℚ)) j + 0 * (fun _ => (1 : ℚ)) j) i
          * (fun _ => (1 : ℚ)) i := by
  refine ⟨by norm_num, ?_⟩
  simp [ConjGradientLineMin.eval_dfx, ConjGradientLineMin.eval_fx,
    ConjGradientLineMin.bind_line, core_block_blas_axpy, dot_product, Demo.adapter_linear,
    Demo.linear]

/-- C10. If the value reported by the refinement equals the adapter's `eval_fx` at the
reported step length, then after `linemin` the reported value `fxmin()` is the objective
at the updated base vector, which is `vbase + xmin() * vdir`. -/
theorem ConjGradientLineMin.fxmin_is_objective_at_new_base [Add TT] [Mul TT] [Zero TT]
    (ls : LineSearch TT) (self : ConjGradientLineMin TT n) (vbase vdir : Vec TT n)
    (bracketmax : TT)
    (h : (self.linemin ls vbase vdir bracketmax).1.fxmin
      = ((self.bind_line vbase vdir).eval_fx
          (self.linemin ls vbase vdir bracketmax).1.xmin).1) :
    (self.linemin ls vbase vdir bracketmax).1.fxmin
      = self.m_p.eval_fx (self.linemin ls vbase vdir bracketmax).2 ∧
    (self.linemin ls vbase vdir bracketmax).2
      = fun i => vbase i + (self.linemin ls vbase vdir bracketmax).1.xmin * vdir i := by
  refine ⟨?_, ConjGradientLineMin.linemin_snd ls self vbase vdir bracketmax⟩
  rw [h, ConjGradientLineMin.linemin_snd ls self vbase vdir bracketmax]
  rfl

/-- Witness for C10: the square function from base `3` along direction `-2` with
`bracketmax = 1`; the search reports step `1` and value `1 = f(3 - 2)`. -/
theorem ConjGradientLineMin.fxmin_is_objective_at_new_base_witness :
    (Demo.adapter.linemin Demo.far_end (fun _ => 3) (fun _ => -2) 1).1.fxmin
      = Demo.square.eval_fx (Demo.adapter.linemin Demo.far_end (fun _ => 3) (fun _ => -2) 1).2 ∧
    (Demo.adapter.linemin Demo.far_end (fun _ => 3) (fun _ => -2) 1).2
      = fun i => (fun _ => 3) i
          + (Demo.adapter.linemin Demo.far_end (fun _ => 3) (fun _ => -2) 1).1.xmin
            * (fun _ => -2) i :=
  ConjGradientLineMin.fxmin_is_objective_at_new_base Demo.far_end Demo.adapter
    (fun _ => 3) (fun _ => -2) 1 rfl

end LineMin

/-! ## Results on the parameters and on the minimizer -/

section Minimizer

variable {TT : Type} {n : Nat}

/-- C4. A default-constructed parameter block has `termination_ratio = 1e-7`,
`gradient_ratio = 1e-8`, `bracket_max = 1.0`, `iterations_max = 1000000` and
`line_min_eps = 0`. -/
theorem ConjGradientMinParams.new_defaults [LinearOrderedField TT] :
    (ConjGradientMinParams.new : ConjGradientMinParams TT).termination_ratio
      = 1 / 10000000 ∧
    (ConjGradientMinParams.new : ConjGradientMinParams TT).gradient_ratio
      = 1 / 100000000 ∧
    (ConjGradientMinParams.new : ConjGradientMinParams TT).bracket_max = 1 ∧
    (ConjGradientMinParams.new : ConjGradientMinParams TT).iterations_max = 1000000 ∧
    (ConjGradientMinParams.new : ConjGradientMinParams TT).line_min_eps = 0 := by
  refine ⟨?_, ?_, ?_, rfl, rfl⟩ <;> norm_num [ConjGradientMinParams.new]

/-- One call of `step` leaves the parameters alone. -/
theorem ConjGradientMin.step_m_params [LinearOrderedField TT] (ls : LineSearch TT)
    (nu : Numerics TT) (d : Derived TT n) (self : ConjGradientMin TT n) :
    (self.step ls nu d).2.m_params = self.m_params := by
  simp only [ConjGradientMin.step]
  split <;> rfl

/-- One call of `step` adds exactly one to the iteration count. -/
theorem ConjGradientMin.step_m_iterations [LinearOrderedField TT] (ls : LineSearch TT)
    (nu : Numerics TT) (d : Derived TT n) (self : ConjGradientMin TT n) :
    (self.step ls nu d).2.m_iterations = self.m_iterations + 1 := by
  simp only [ConjGradientMin.step]
  split <;> rfl

/-- The flag returned by `step` is the termination test on the minimizer it leaves. -/
theorem ConjGradientMin.step_fst [LinearOrderedField TT] (ls : LineSearch TT)
    (nu : Numerics TT) (d : Derived TT n) (self : ConjGradientMin TT n) :
    (self.step ls nu d).1 = ConjGradientMin.terminated nu (self.step ls nu d).2 := rfl

/-- A call of `step` that returns false leaves the count strictly below the cap. -/
theorem ConjGradientMin.step_false_lt_cap [LinearOrderedField TT] (ls : LineSearch TT)
    (nu : Numerics TT) (d : Derived TT n) (self : ConjGradientMin TT n)
    (h : (self.step ls nu d).1 = false) :
    (self.step ls nu d).2.m_iterations < (self.step ls nu d).2.m_params.iterations_max := by
  rw [ConjGradientMin.step_fst] at h
  simp only [ConjGradientMin.terminated, Bool.or_eq_false_iff, decide_eq_false_iff_not,
    ge_iff_le, not_le] at h
  exact h.1.1.2

/-- C5. If the end-of-step hook always returns true, the first call of `step` after
`init` returns true and `early_exit()` is true afterwards, whatever the objective, the
starting point, the parameters and the convergence tests. -/
theorem ConjGradientMin.step_early_exit_on_hook [LinearOrderedField TT] (ls : LineSearch TT)
    (nu : Numerics TT) (d : Derived TT n) (self0 : ConjGradientMin TT n) (x0 : Vec TT n)
    (hook : ∀ s, d.eval_end_step s = true) :
    ((self0.init nu d x0).step ls nu d).1 = true ∧
    ((self0.init nu d x0).step ls nu d).2.early_exit = true := by
  have h2 : ((self0.init nu d x0).step ls nu d).2.m_early_exit = true := by
    simp only [ConjGradientMin.step, hook, if_true]
  refine ⟨?_, h2⟩
  rw [ConjGradientMin.step_fst]
  simp only [ConjGradientMin.terminated, h2, Bool.true_or]

/-- Witness for C5: the square function from `3`, default parameters, a hook that always
asks to stop. -/
theorem ConjGradientMin.step_early_exit_on_hook_witness :
    (∀ s, (Demo.derived fun _ => true).eval_end_step s = true) ∧
    (((Demo.minimizer 1000000).init Demo.numerics (Demo.derived fun _ => true)
        (fun _ => 3)).step Demo.far_end Demo.numerics (Demo.derived fun _ => true)).1 = true ∧
    (((Demo.minimizer 1000000).init Demo.numerics (Demo.derived fun _ => true)
        (fun _ => 3)).step Demo.far_end Demo.numerics
          (Demo.derived fun _ => true)).2.early_exit = true :=
  ⟨fun _ => rfl,
    ConjGradientMin.step_early_exit_on_hook Demo.far_end Demo.numerics
      (Demo.derived fun _ => true) (Demo.minimizer 1000000) (fun _ => 3) (fun _ => rfl)⟩

/-- C6. In Polak-Ribiere mode, on a step that is not the startup step and whose ratio
`(g_new . (g_new - g_old)) / (g_old . g_old)` is negative, `beta` is clamped to zero: the
search direction of the step is the current negated gradient, this is the direction
`step` leaves in `direction_h`, and the point moves along it. -/
theorem ConjGradientMin.step_polak_ribiere_restart [LinearOrderedField TT]
    (ls : LineSearch TT) (nu : Numerics TT) (d : Derived TT n) (self : ConjGradientMin TT n)
    (hmode : self.m_params.update_mode
      = ConjGradientUpdateMode.ConjGradientUpdateModePolakRibiere)
    (hrun : self.m_startup = false)
    (hneg : ConjGradientMin.beta_polak_ribiere (ConjGradientMin.negative_gradient d self)
      self.m_vdir_g < 0) :
    ConjGradientMin.beta self.m_params.update_mode (ConjGradientMin.negative_gradient d self)
      self.m_vdir_g = 0 ∧
    ConjGradientMin.search_direction d self = ConjGradientMin.negative_gradient d self ∧
    (self.step ls nu d).2.m_vdir_h = ConjGradientMin.negative_gradient d self ∧
    ∀ i, (self.step ls nu d).2.state i
      = self.m_vstate i
        + (self.step ls nu d).2.m_linemin.xmin * ConjGradientMin.negative_gradient d self i := by
  have hb : ConjGradientMin.beta self.m_params.update_mode
      (ConjGradientMin.negative_gradient d self) self.m_vdir_g = 0 := by
    unfold ConjGradientMin.beta
    split
    · rfl
    · rw [hmode]
      exact max_eq_right hneg.le
  have hd : ConjGradientMin.search_direction d self
      = ConjGradientMin.negative_gradient d self := by
    funext i
    simp [ConjGradientMin.search_direction, hrun, hb]
  have hh : (self.step ls nu d).2.m_vdir_h = ConjGradientMin.search_direction d self := by
    simp only [ConjGradientMin.step]
    split <;> rfl
  have hx : (self.step ls nu d).2.m_vstate
      = (self.m_linemin.linemin ls self.m_vstate (ConjGradientMin.search_direction d self)
          self.m_params.bracket_max).2 := by
    simp only [ConjGradientMin.step]
    split <;> rfl
  have hl : (self.step ls nu d).2.m_linemin
      = (self.m_linemin.linemin ls self.m_vstate (ConjGradientMin.search_direction d self)
          self.m_params.bracket_max).1 := by
    simp only [ConjGradientMin.step]
    split <;> rfl
  refine ⟨hb, hd, hh.trans hd, ?_⟩
  intro i
  rw [ConjGradientMin.state, hx, hl, ConjGradientLineMin.linemin_snd, hd]

/-- Witness for C6: the running minimizer `Demo.running`, where the ratio is
`1 * (1 - 2) / (2 * 2) = -1/4`. -/
theorem ConjGradientMin.step_polak_ribiere_restart_witness :
    ConjGradientMin.beta_polak_ribiere
      (ConjGradientMin.negative_gradient (Demo.derived fun _ => false) Demo.running)
      Demo.running.m_vdir_g < 0 ∧
    (Demo.running.step Demo.far_end Demo.numerics (Demo.derived fun _ => false)).2.m_vdir_h
      = ConjGradientMin.negative_gradient (Demo.derived fun _ => false) Demo.running :=
  have hneg : ConjGradientMin.beta_polak_ribiere
      (ConjGradientMin.negative_gradient (Demo.derived fun _ => false) Demo.running)
      Demo.running.m_vdir_g < 0 := by
    norm_num [ConjGradientMin.beta_polak_ribiere, ConjGradientMin.negative_gradient,
      dot_product, Demo.running, Demo.minimizer, Demo.derived, Demo.square]
  ⟨hneg,
    (ConjGradientMin.step_polak_ribiere_restart Demo.far_end Demo.numerics
      (Demo.derived fun _ => false) Demo.running rfl rfl hneg).2.2.1⟩

/-- The iteration count is zero right after `init`. -/
theorem ConjGradientMin.init_m_iterations [LinearOrderedField TT] (nu : Numerics TT)
    (d : Derived TT n) (self0 : ConjGradientMin TT n) (x0 : Vec TT n) :
    (self0.init nu d x0).m_iterations = 0 := rfl

/-- A call of `step` that leaves the count at or above the cap returns true. -/
theorem ConjGradientMin.step_true_of_cap_le [LinearOrderedField TT] (ls : LineSearch TT)
    (nu : Numerics TT) (d : Derived TT n) (self : ConjGradientMin TT n)
    (h : (self.step ls nu d).2.m_params.iterations_max ≤ (self.step ls nu d).2.m_iterations) :
    (self.step ls nu d).1 = true := by
  cases hb : (self.step ls nu d).1 with
  | true => rfl
  | false =>
    have := ConjGradientMin.step_false_lt_cap ls nu d self hb
    omega

/-- The loop invariant behind the iteration bound: along the documented loop the
parameters stay as given, the count is at most the cap, and it is strictly below the cap
while `step` has not yet returned true. -/
theorem Reached.invariant [LinearOrderedField TT] (ls : LineSearch TT)
    (nu : Numerics TT) (d : Derived TT n) (self0 : ConjGradientMin TT n) (x0 : Vec TT n)
    (hcap : 1 ≤ self0.m_params.iterations_max)
    (b : Bool) (s : ConjGradientMin TT n) (hr : Reached ls nu d self0 x0 b s) :
    s.m_params = self0.m_params ∧
      s.m_iterations ≤ s.m_params.iterations_max ∧
      (b = false → s.m_iterations < s.m_params.iterations_max) := by
  induction hr with
  | init =>
    refine ⟨rfl, ?_, fun _ => ?_⟩
    · show (0 : Int) ≤ self0.m_params.iterations_max
      omega
    · show (0 : Int) < self0.m_params.iterations_max
      omega
  | step s _ ih =>
    have hlt := ih.2.2 rfl
    refine ⟨(ConjGradientMin.step_m_params ls nu d s).trans ih.1, ?_,
      fun hf => ConjGradientMin.step_false_lt_cap ls nu d s hf⟩
    rw [ConjGradientMin.step_m_iterations, ConjGradientMin.step_m_params]
    omega

/-- C7 (amended). With an iteration cap of at least one: the count is zero after `init`,
every call of `step` adds exactly one to it and returns true as soon as the count has
reached the cap, and every minimizer reached from `init` by calling `step` for as long
as the previous call returned false has an iteration count of at most the cap it was
given. -/
theorem ConjGradientMin.iteration_count_le_cap [LinearOrderedField TT] (ls : LineSearch TT)
    (nu : Numerics TT) (d : Derived TT n) (self0 : ConjGradientMin TT n) (x0 : Vec TT n)
    (hcap : 1 ≤ self0.m_params.iterations_max) :
    (self0.init nu d x0).iteration_count = 0 ∧
    (∀ t : ConjGradientMin TT n,
      (t.step ls nu d).2.iteration_count = t.iteration_count + 1) ∧
    (∀ t : ConjGradientMin TT n,
      (t.step ls nu d).2.m_params.iterations_max ≤ (t.step ls nu d).2.iteration_count →
        (t.step ls nu d).1 = true) ∧
    ∀ (b : Bool) (s : ConjGradientMin TT n), Reached ls nu d self0 x0 b s →
      s.m_params.iterations_max = self0.m_params.iterations_max ∧
      s.iteration_count ≤ self0.m_params.iterations_max := by
  refine ⟨rfl, fun t => ConjGradientMin.step_m_iterations ls nu d t,
    fun t h => ConjGradientMin.step_true_of_cap_le ls nu d t h, fun b s hr => ?_⟩
  have key := Reached.invariant ls nu d self0 x0 hcap b s hr
  refine ⟨by rw [key.1], ?_⟩
  have h2 := key.2.1
  rw [key.1] at h2
  exact h2

/-- Witness for C7 (amended): cap `2`, the minimizer after one step from `3` on the
square function. -/
theorem ConjGradientMin.iteration_count_le_cap_witness :
    1 ≤ (Demo.minimizer 2).m_params.iterations_max ∧
    (((Demo.minimizer 2).init Demo.numerics (Demo.derived fun _ => false)
        (fun _ => 3)).step Demo.far_end Demo.numerics
          (Demo.derived fun _ => false)).2.iteration_count
      ≤ (Demo.minimizer 2).m_params.iterations_max :=
  ⟨by decide,
    ((ConjGradientMin.iteration_count_le_cap Demo.far_end Demo.numerics
      (Demo.derived fun _ => false) (Demo.minimizer 2) (fun _ => 3) (by decide)).2.2.2 _ _
      (Reached.step _ Reached.init)).2⟩

/-- Counterexample for C7 as stated: with `iterations_max = 0` the first call of `step`
after `init` returns true and leaves an iteration count of `1`, above the cap. -/
theorem ConjGradientMin.iteration_count_exceeds_zero_cap :
    ∃ s, Reached Demo.far_end Demo.numerics (Demo.derived fun _ => false)
        (Demo.minimizer 0) (fun _ => 3) true s ∧
      s.iteration_count = 1 ∧ s.m_params.iterations_max = 0 ∧
      ¬ s.iteration_count ≤ s.m_params.iterations_max := by
  refine ⟨(((Demo.minimizer 0).init Demo.numerics (Demo.derived fun _ => false)
    (fun _ => 3)).step Demo.far_end Demo.numerics (Demo.derived fun _ => false)).2,
    ?_, rfl, rfl, by decide⟩
  have h : Reached Demo.far_end Demo.numerics (Demo.derived fun _ => false)
      (Demo.minimizer 0) (fun _ => 3)
      (((Demo.minimizer 0).init Demo.numerics (Demo.derived fun _ => false)
        (fun _ => 3)).step Demo.far_end Demo.numerics (Demo.derived fun _ => false)).1
      (((Demo.minimizer 0).init Demo.numerics (Demo.derived fun _ => false)
        (fun _ => 3)).step Demo.far_end Demo.numerics (Demo.derived fun _ => false)).2 :=
    Reached.step _ Reached.init
  have ht : (((Demo.minimizer 0).init Demo.numerics (Demo.derived fun _ => false)
    (fun _ => 3)).step Demo.far_end Demo.numerics (Demo.derived fun _ => false)).1 = true := by
    rw [ConjGradientMin.step_fst]
    simp [ConjGradientMin.terminated, ConjGradientMin.step, ConjGradientMin.init,
      Demo.minimizer, Demo.derived]
  rw [ht] at h
  exact h

end Minimizer

end im
